import Mathlib

/-!
Shallow embedding of the tsuru-client volume command handlers
(`tsuru/client/volume.go`) and proofs about the query-and-filter pipeline,
the form-encoding of create/update requests, and the rendering modes.

Go `map`s are modelled as association lists (the code only iterates them,
sorting afterwards where order matters).  Strings are modelled as Lean
`String`s; Go's byte-level substring and byte-lexicographic order coincide
with the character-level ones on valid UTF-8 data, which UTF-8 guarantees.
Values of Go type `interface{}` inside option maps are modelled as the
strings the code prints them as (via `fmt.Sprintf("%v", v)`).
-/

/-- Data model: `volumeTypes.VolumePlan` (name plus provisioner-specific
option map). -/
structure VolumePlan where
  name : String
  opts : List (String × String)
deriving DecidableEq

/-- Data model: identity of a bind (`volumeTypes.VolumeBindID`). -/
structure VolumeBindID where
  app : String
  mountPoint : String
deriving DecidableEq

/-- Data model: a bind of a volume to an application
(`volumeTypes.VolumeBind`). -/
structure VolumeBindData where
  id : VolumeBindID
  readOnly : Bool
deriving DecidableEq

/-- Data model: `volumeTypes.Volume`. -/
structure Volume where
  name : String
  pool : String
  plan : VolumePlan
  teamOwner : String
  opts : List (String × String)
  binds : List VolumeBindData
deriving DecidableEq

/-- Filter criteria held by the list command (`volumeFilter` in volume.go). -/
structure volumeFilter where
  name : String
  pool : String
  plan : String
  teamOwner : String
deriving DecidableEq

/-- `volumeFilter.queryString`: builds the `url.Values` sent to the server.
The code calls `result.Set(k, v)` for each non-empty field, in source order
name, teamOwner, pool, plan; `url.Values` is a map, modelled here as the
list of key/value pairs that were set. -/
def volumeFilter.queryString (f : volumeFilter) : List (String × String) :=
  (if f.name ≠ "" then [("name", f.name)] else []) ++
  (if f.teamOwner ≠ "" then [("teamOwner", f.teamOwner)] else []) ++
  (if f.pool ≠ "" then [("pool", f.pool)] else []) ++
  (if f.plan ≠ "" then [("plan", f.plan)] else [])

/-- Go `strings.Contains(s, sub)`: case-sensitive substring containment. -/
def strContains (s sub : String) : Bool :=
  decide (sub.toList <:+: s.toList)

/-- The per-volume test inside `VolumeList.clientSideFilter`'s loop:
`insert` starts true and each non-empty criterion that fails clears it. -/
def volumeMatches (f : volumeFilter) (v : Volume) : Bool :=
  let insert := true
  let insert := if f.name != "" && !(strContains v.name f.name) then false else insert
  let insert := if f.pool != "" && v.pool != f.pool then false else insert
  let insert := if f.plan != "" && v.plan.name != f.plan then false else insert
  let insert := if f.teamOwner != "" && v.teamOwner != f.teamOwner then false else insert
  insert

/-- `VolumeList.clientSideFilter`: iterates the decoded volumes, appending
each one that passes the criteria to `result` (initially empty). -/
def VolumeList.clientSideFilter (f : volumeFilter) (volumes : List Volume) : List Volume :=
  volumes.foldl (fun result v => if volumeMatches f v then result ++ [v] else result) []

/-- Comparator for Go's `sort.Strings`: lexicographic string order (Go's
byte order and Lean's character order agree on valid UTF-8). -/
def strLe (a b : String) : Bool :=
  decide (a ≤ b)

/-- Go `sort.Strings`: sorts a string slice lexicographically ascending. -/
def sortStrings (l : List String) : List String :=
  l.mergeSort strLe

/-- Modelled from the spec: the row order produced by `tablecli.Table.Sort`
(the `tablecli` package is not part of this repository's sources); per the
spec it is "lexicographic by first column, ties by subsequent columns". -/
def rowLe : List String → List String → Bool
  | [], _ => true
  | _ :: _, [] => false
  | a :: as, b :: bs => if a < b then true else if b < a then false else rowLe as bs

/-- Modelled from the spec: `tablecli.Table.Sort` sorts the accumulated rows
lexicographically (first column, then subsequent columns). -/
def tableSortRows (rows : List (List String)) : List (List String) :=
  rows.mergeSort rowLe

/-- The (first, second) column pair of a row, the sort key of
`SortByColumn(0, 1)`. -/
def rowKey01 (r : List String) : String × String :=
  (r.headD "", (r.drop 1).headD "")

/-- Lexicographic comparison of two (column 0, column 1) keys. -/
def pairLe (a b : String × String) : Bool :=
  if a.1 < b.1 then true else if b.1 < a.1 then false else decide (a.2 ≤ b.2)

/-- Modelled from the spec: `tablecli.Table.SortByColumn(0, 1)` (the
`tablecli` package is not part of this repository's sources); per the spec
it sorts rows "by (Plan, Provisioner) ascending", i.e. by columns 0 then 1. -/
def sortByPlanProv (rows : List (List String)) : List (List String) :=
  rows.mergeSort (fun a b => pairLe (rowKey01 a) (rowKey01 b))

/-- A rendered table: fixed headers plus data rows, as handed to `tablecli`. -/
structure Table where
  headers : List String
  rows : List (List String)
deriving DecidableEq

/-- The non-JSON info view: the fixed-field summary text followed by the
three dependent tables, in print order. -/
structure InfoView where
  summary : String
  binds : Table
  planOpts : Table
  opts : Table
deriving DecidableEq

/-- What a handler emits on stdout, structurally: a fixed message, a list of
names (one per line), a JSON value (the structure handed to
`formatter.JSON`, which pretty-prints it), a table, or the info view. -/
inductive Output where
  | message (text : String)
  | names (lines : List String)
  | jsonList (value : List Volume)
  | jsonVolume (value : Volume)
  | table (t : Table)
  | infoView (v : InfoView)
deriving DecidableEq

/-- The full table of `VolumeList.render`: headers Name/Plan/Pool/Team, one
row per volume in input order, then `tbl.Sort()`. -/
def VolumeList.listTable (volumes : List Volume) : Table :=
  { headers := ["Name", "Plan", "Pool", "Team"],
    rows := tableSortRows (volumes.map (fun v => [v.name, v.plan.name, v.pool, v.teamOwner])) }

/-- `VolumeList.render`: simplified (name-only) first, then JSON, then the
full table. -/
def VolumeList.render (simplified json : Bool) (volumes : List Volume) : Output :=
  if simplified then
    .names (volumes.map (fun v => v.name))
  else if json then
    .jsonList volumes
  else
    .table (VolumeList.listTable volumes)

/-- `VolumeList.Run` from the response on: on 204 print the fixed message,
otherwise decode the body, client-side filter, and render.  The decoder is
a parameter so that the 204 path provably never invokes it. -/
def VolumeList.run (f : volumeFilter) (simplified json : Bool) (status : Nat)
    (body : String) (decode : String → Except String (List Volume)) :
    Except String Output :=
  if status == 204 then
    .ok (.message "No volumes available.\n")
  else
    match decode body with
    | .error e => .error e
    | .ok volumes => .ok (VolumeList.render simplified json (VolumeList.clientSideFilter f volumes))

/-- `VolumeInfo.render`: fixed-field summary, Binds table (input order, Mode
"ro" when read-only else "rw"), then Plan Opts and Opts tables, each built
from the option map and sorted via `tbl.Sort()`. -/
def VolumeInfo.render (volume : Volume) : InfoView :=
  { summary := "Name: " ++ volume.name ++ "\nPlan: " ++ volume.plan.name ++
      "\nPool: " ++ volume.pool ++ "\nTeam: " ++ volume.teamOwner ++ "\n",
    binds := { headers := ["App", "MountPoint", "Mode"],
               rows := volume.binds.map (fun b =>
                 [b.id.app, b.id.mountPoint, if b.readOnly then "ro" else "rw"]) },
    planOpts := { headers := ["Key", "Value"],
                  rows := tableSortRows (volume.plan.opts.map (fun kv => [kv.1, kv.2])) },
    opts := { headers := ["Key", "Value"],
              rows := tableSortRows (volume.opts.map (fun kv => [kv.1, kv.2])) } }

/-- `VolumeInfo.Run` from the response on: on 204 print the fixed message,
otherwise decode a single volume and emit JSON or the info view. -/
def VolumeInfo.run (json : Bool) (status : Nat) (body : String)
    (decode : String → Except String Volume) : Except String Output :=
  if status == 204 then
    .ok (.message "No volumes available.\n")
  else
    match decode body with
    | .error e => .error e
    | .ok volume => if json then .ok (.jsonVolume volume) else .ok (.infoView (VolumeInfo.render volume))

/-- One row of the plan-list table: plan name, provisioner, and the options
rendered as "key: value" lines, `sort.Strings`-sorted and newline-joined. -/
def planRow (provisioner : String) (p : VolumePlan) : List String :=
  [p.name, provisioner,
   String.intercalate "\n" (sortStrings (p.opts.map (fun kv => kv.1 ++ ": " ++ kv.2)))]

/-- All rows accumulated by `VolumePlansList.render`'s nested loops, one per
(plan, provisioner) pair; the decoded provisioner map is modelled as an
association list. -/
def VolumePlansList.planRows (plans : List (String × List VolumePlan)) : List (List String) :=
  plans.flatMap (fun pr => pr.2.map (planRow pr.1))

/-- `VolumePlansList.render`: headers Plan/Provisioner/Opts, the accumulated
rows sorted by `SortByColumn(0, 1)`. -/
def VolumePlansList.render (plans : List (String × List VolumePlan)) : Table :=
  { headers := ["Plan", "Provisioner", "Opts"],
    rows := sortByPlanProv (VolumePlansList.planRows plans) }

/-- `VolumePlansList.Run` from the response on: the plans map stays empty on
204 (the body is not read and the decoder not invoked); any other status
decodes the body; either way the table is rendered. -/
def VolumePlansList.run (status : Nat) (body : String)
    (decode : String → Except String (List (String × List VolumePlan))) :
    Except String Output :=
  if status == 204 then
    .ok (.table (VolumePlansList.render []))
  else
    match decode body with
    | .error e => .error e
    | .ok plans => .ok (.table (VolumePlansList.render plans))

/-- Modelled from the spec: the `github.com/ajg/form` encoder invoked by
`VolumeCreate.Run`/`VolumeUpdate.Run` is not part of this repository's
sources.  Per the spec, the write encoding "produces a flat key=value
encoding of Name, Plan.Name, Pool, TeamOwner, and each Opts entry
individually addressable by key" and "must omit absent optional fields
rather than sending empty strings": a zero-valued (empty-string) field
contributes no key. -/
def encodeVolumeForWrite (v : Volume) : List (String × String) :=
  (if v.name ≠ "" then [("Name", v.name)] else []) ++
  (if v.plan.name ≠ "" then [("Plan.Name", v.plan.name)] else []) ++
  (if v.pool ≠ "" then [("Pool", v.pool)] else []) ++
  (if v.teamOwner ≠ "" then [("TeamOwner", v.teamOwner)] else []) ++
  v.opts.map (fun kv => ("Opts." ++ kv.1, kv.2))

/-- The form body built by `VolumeCreate.Run` from its arguments and flags:
the volume literal of volume.go lines 59-65, passed to the form encoder. -/
def VolumeCreate.requestBody (volumeName planName pool team : String)
    (opt : List (String × String)) : List (String × String) :=
  encodeVolumeForWrite
    { name := volumeName, plan := { name := planName, opts := [] },
      pool := pool, teamOwner := team, opts := opt, binds := [] }

/-- The form body built by `VolumeUpdate.Run`, identical construction to
`VolumeCreate.Run` (volume.go lines 123-129). -/
def VolumeUpdate.requestBody (volumeName planName pool team : String)
    (opt : List (String × String)) : List (String × String) :=
  encodeVolumeForWrite
    { name := volumeName, plan := { name := planName, opts := [] },
      pool := pool, teamOwner := team, opts := opt, binds := [] }

/-- Sample volume used by concrete witnesses (spec §8 scenario data). -/
def sampleVolume1 : Volume :=
  { name := "data1", pool := "p1", plan := { name := "nfs", opts := [] },
    teamOwner := "t1", opts := [], binds := [] }

/-- Second sample volume used by concrete witnesses. -/
def sampleVolume2 : Volume :=
  { name := "data2", pool := "p2", plan := { name := "nfs", opts := [] },
    teamOwner := "t2", opts := [], binds := [] }

/-- Sample filter criteria selecting only pool "p1". -/
def samplePoolFilter : volumeFilter :=
  { name := "", pool := "p1", plan := "", teamOwner := "" }

/-- Sample filter criteria with every field set. -/
def sampleFullFilter : volumeFilter :=
  { name := "data", pool := "p1", plan := "nfs", teamOwner := "t1" }

/-- Helper: unrolling `clientSideFilter`'s loop onto any accumulator shows it
computes the accumulator followed by the matching elements, in order. -/
theorem clientSideFilter_foldl_general (f : volumeFilter) :
    ∀ (l : List Volume) (acc : List Volume),
      l.foldl (fun result v => if volumeMatches f v then result ++ [v] else result) acc
        = acc ++ l.filter (volumeMatches f)
  | [], acc => by simp
  | v :: l, acc => by
    cases hv : volumeMatches f v <;>
      simp [List.foldl_cons, hv, clientSideFilter_foldl_general f l, List.filter_cons]

/-- C1: the client-side filter keeps a volume iff all four component
comparisons hold — name by case-sensitive substring containment, pool, plan
and team owner by exact equality — and an empty criteria field always
matches. -/
theorem claim_C1_matches_iff_components (f : volumeFilter) (v : Volume) :
    volumeMatches f v = true ↔
      ((f.name ≠ "" → f.name.toList <:+: v.name.toList) ∧
       (f.pool ≠ "" → v.pool = f.pool) ∧
       (f.plan ≠ "" → v.plan.name = f.plan) ∧
       (f.teamOwner ≠ "" → v.teamOwner = f.teamOwner)) := by
  have hif : ∀ (c b : Bool), (if c = true then false else b) = (!c && b) := by
    intro c b; cases c <;> simp
  simp only [volumeMatches, strContains, hif]
  simp [Bool.and_eq_true, not_and, and_assoc]
  tauto

/-- Witness for C1 at concrete data: the fully-set sample criteria keep
`sampleVolume1`. -/
theorem claim_C1_witness : volumeMatches sampleFullFilter sampleVolume1 = true :=
  (claim_C1_matches_iff_components sampleFullFilter sampleVolume1).mpr (by decide)

/-- C6: the client-side filtering pass returns exactly the matching
elements as an order-preserving subsequence of the input (so nothing is
reordered or duplicated). -/
theorem claim_C6_filter_order_preserving (f : volumeFilter) (volumes : List Volume) :
    VolumeList.clientSideFilter f volumes = volumes.filter (volumeMatches f) ∧
      (VolumeList.clientSideFilter f volumes).Sublist volumes := by
  have h := clientSideFilter_foldl_general f volumes []
  simp [VolumeList.clientSideFilter] at h ⊢
  exact ⟨h, h ▸ List.filter_sublist volumes⟩

/-- Witness for C6 at concrete data: filtering the two sample volumes by
pool "p1" keeps exactly the first, in place. -/
theorem claim_C6_witness :
    VolumeList.clientSideFilter samplePoolFilter [sampleVolume1, sampleVolume2]
        = [sampleVolume1, sampleVolume2].filter (volumeMatches samplePoolFilter) ∧
      (VolumeList.clientSideFilter samplePoolFilter [sampleVolume1, sampleVolume2]).Sublist
        [sampleVolume1, sampleVolume2] :=
  claim_C6_filter_order_preserving samplePoolFilter [sampleVolume1, sampleVolume2]

/-- C9: the list query string contains exactly the non-empty criteria
fields, under the exact keys name, pool, plan and teamOwner. -/
theorem claim_C9_queryString_exact (f : volumeFilter) (k v : String) :
    (k, v) ∈ f.queryString ↔
      ((k = "name" ∧ v = f.name ∧ f.name ≠ "") ∨
       (k = "pool" ∧ v = f.pool ∧ f.pool ≠ "") ∨
       (k = "plan" ∧ v = f.plan ∧ f.plan ≠ "") ∨
       (k = "teamOwner" ∧ v = f.teamOwner ∧ f.teamOwner ≠ "")) := by
  by_cases h1 : f.name = "" <;> by_cases h2 : f.pool = "" <;>
    by_cases h3 : f.plan = "" <;> by_cases h4 : f.teamOwner = "" <;>
    simp [volumeFilter.queryString, h1, h2, h3, h4, Prod.ext_iff] <;> tauto

/-- Witness for C9 at concrete data: the pool-only sample filter emits the
pool pair and nothing under the name key. -/
theorem claim_C9_witness : ("pool", "p1") ∈ samplePoolFilter.queryString :=
  (claim_C9_queryString_exact samplePoolFilter "pool" "p1").mpr (by decide)

/-- Helper: an options entry is encoded under an "Opts."-prefixed key, which
is never one of the four fixed field keys. -/
theorem optsKey_ne_fixed (k : String) :
    "Opts." ++ k ≠ "Pool" ∧ "Opts." ++ k ≠ "TeamOwner" ∧
    "Opts." ++ k ≠ "Name" ∧ "Opts." ++ k ≠ "Plan.Name" := by
  refine ⟨fun h => ?_, fun h => ?_, fun h => ?_, fun h => ?_⟩ <;>
  · have h2 := congrArg String.data h
    simp [String.data_append] at h2

/-- Helper: no fixed field key occurs among the encoded options entries. -/
theorem fixedKey_notin_optsPart (opt : List (String × String)) (key val : String)
    (hk : ∀ k : String, "Opts." ++ k ≠ key) :
    (key, val) ∉ opt.map (fun kv => ("Opts." ++ kv.1, kv.2)) := by
  intro hmem
  rcases List.mem_map.mp hmem with ⟨kv, _, hkv⟩
  exact hk kv.1 (congrArg Prod.fst hkv)

/-- C2: the create and update request bodies agree, and each omits the
optional Pool and TeamOwner fields exactly when they are empty, never
sending an empty-string value under those keys. -/
theorem claim_C2_omit_empty_optionals (vn pn pool team : String) (opt : List (String × String)) :
    VolumeUpdate.requestBody vn pn pool team opt = VolumeCreate.requestBody vn pn pool team opt ∧
    ((∃ val, ("Pool", val) ∈ VolumeCreate.requestBody vn pn pool team opt) ↔ pool ≠ "") ∧
    (∀ val, ("Pool", val) ∈ VolumeCreate.requestBody vn pn pool team opt → val = pool) ∧
    ((∃ val, ("TeamOwner", val) ∈ VolumeCreate.requestBody vn pn pool team opt) ↔ team ≠ "") ∧
    (∀ val, ("TeamOwner", val) ∈ VolumeCreate.requestBody vn pn pool team opt → val = team) := by
  have hpool := fun val => fixedKey_notin_optsPart opt "Pool" val (fun k => (optsKey_ne_fixed k).1)
  have hteam := fun val => fixedKey_notin_optsPart opt "TeamOwner" val (fun k => (optsKey_ne_fixed k).2.1)
  refine ⟨rfl, ?_, ?_, ?_, ?_⟩ <;>
  · by_cases h1 : vn = "" <;> by_cases h2 : pn = "" <;>
      by_cases h3 : pool = "" <;> by_cases h4 : team = "" <;>
      simp [VolumeCreate.requestBody, encodeVolumeForWrite, h1, h2, h3, h4,
        Prod.ext_iff, hpool, hteam]

/-- Witness for C2 at concrete data: with an empty pool and a set team, the
TeamOwner key is present (and, by the theorem, Pool is absent). -/
theorem claim_C2_witness :
    ∃ val, ("TeamOwner", val) ∈ VolumeCreate.requestBody "v1" "nfs" "" "t1" [("size", "10")] :=
  (claim_C2_omit_empty_optionals "v1" "nfs" "" "t1" [("size", "10")]).2.2.2.1.mpr (by decide)

/-- C4: on HTTP 204 both the list and the info handlers print exactly the
fixed message (with trailing newline), emit no table, never invoke the
decoder (the result is the same for every decoder), and succeed. -/
theorem claim_C4_204_fixed_message (f : volumeFilter) (s j jf : Bool) (body : String)
    (decodeL : String → Except String (List Volume)) (decodeI : String → Except String Volume) :
    VolumeList.run f s j 204 body decodeL = .ok (.message "No volumes available.\n") ∧
    VolumeInfo.run jf 204 body decodeI = .ok (.message "No volumes available.\n") :=
  ⟨rfl, rfl⟩

/-- Witness for C4 at concrete data: a decoder that always fails is never
consulted on a 204 response. -/
theorem claim_C4_witness :
    VolumeList.run samplePoolFilter false false 204 ""
        (fun _ => Except.error "boom") = .ok (.message "No volumes available.\n") ∧
    VolumeInfo.run false 204 ""
        (fun _ => Except.error "boom") = .ok (.message "No volumes available.\n") :=
  claim_C4_204_fixed_message samplePoolFilter false false false ""
    (fun _ => Except.error "boom") (fun _ => Except.error "boom")

/-- C5: list output mode is chosen by ordered precedence — simplified wins
over json (name-only output, one name per line, in input order, and no JSON
is printed), then json, then the full table. -/
theorem claim_C5_render_precedence (volumes : List Volume) :
    (∀ j, VolumeList.render true j volumes = .names (volumes.map (fun v => v.name))) ∧
    VolumeList.render false true volumes = .jsonList volumes ∧
    VolumeList.render false false volumes = .table (VolumeList.listTable volumes) ∧
    (∀ l, VolumeList.render true true volumes ≠ .jsonList l) := by
  refine ⟨fun j => rfl, rfl, rfl, fun l h => ?_⟩
  simp [VolumeList.render] at h

/-- Witness for C5 at concrete data. -/
theorem claim_C5_witness :
    (∀ j, VolumeList.render true j [sampleVolume1, sampleVolume2]
        = .names [sampleVolume1.name, sampleVolume2.name]) ∧
    VolumeList.render false true [sampleVolume1, sampleVolume2]
        = .jsonList [sampleVolume1, sampleVolume2] ∧
    VolumeList.render false false [sampleVolume1, sampleVolume2]
        = .table (VolumeList.listTable [sampleVolume1, sampleVolume2]) ∧
    (∀ l, VolumeList.render true true [sampleVolume1, sampleVolume2] ≠ .jsonList l) :=
  claim_C5_render_precedence [sampleVolume1, sampleVolume2]

/-- C10: on HTTP 204 the plan-list handler never invokes the decoder (the
result is the same for every decoder), prints no fixed message, and renders
the Plan/Provisioner/Opts table with zero data rows, succeeding. -/
theorem claim_C10_planlist_204 (body : String)
    (decode : String → Except String (List (String × List VolumePlan))) :
    VolumePlansList.run 204 body decode
        = .ok (.table { headers := ["Plan", "Provisioner", "Opts"], rows := [] }) ∧
    (∀ msg, VolumePlansList.run 204 body decode ≠ .ok (.message msg)) := by
  have hrun : VolumePlansList.run 204 body decode
      = .ok (.table { headers := ["Plan", "Provisioner", "Opts"], rows := [] }) := by
    simp [VolumePlansList.run, VolumePlansList.render, sortByPlanProv, VolumePlansList.planRows]
  refine ⟨hrun, fun msg h => ?_⟩
  rw [hrun] at h
  exact Output.noConfusion (Except.ok.inj h)

/-- Witness for C10 at concrete data: a decoder that always fails is never
consulted on a 204 response. -/
theorem claim_C10_witness :
    VolumePlansList.run 204 "" (fun _ => Except.error "boom")
        = .ok (.table { headers := ["Plan", "Provisioner", "Opts"], rows := [] }) ∧
    (∀ msg, VolumePlansList.run 204 "" (fun _ => Except.error "boom") ≠ .ok (.message msg)) :=
  claim_C10_planlist_204 "" (fun _ => Except.error "boom")

/-- Helper: the loop of `clientSideFilter` computes `List.filter` of the
match predicate. -/
theorem clientSideFilter_eq_filter (f : volumeFilter) (volumes : List Volume) :
    VolumeList.clientSideFilter f volumes = volumes.filter (volumeMatches f) := by
  have h := clientSideFilter_foldl_general f volumes []
  simpa [VolumeList.clientSideFilter] using h

/-- C3 counterexample: with the pool filter set and JSON mode selected, the
emitted JSON is not the full decoded list — the filtering stage has already
removed the non-matching volume. -/
theorem claim_C3_counterexample :
    VolumeList.run samplePoolFilter false true 200 ""
        (fun _ => Except.ok [sampleVolume1, sampleVolume2])
      ≠ Except.ok (Output.jsonList [sampleVolume1, sampleVolume2]) := by
  have hcf : VolumeList.clientSideFilter samplePoolFilter [sampleVolume1, sampleVolume2]
      = [sampleVolume1] := by
    rw [clientSideFilter_eq_filter]; decide
  have hrun : VolumeList.run samplePoolFilter false true 200 ""
      (fun _ => Except.ok [sampleVolume1, sampleVolume2])
      = Except.ok (Output.jsonList [sampleVolume1]) := by
    simp [VolumeList.run, VolumeList.render, hcf]
  intro h
  rw [hrun] at h
  have h2 := Output.jsonList.inj (Except.ok.inj h)
  exact absurd h2 (by decide)

/-- C3 (amended): when JSON output mode is selected, the emitted JSON is the
decoded list after the client-side filtering pass — an order-preserving
subsequence of the decoded volumes, with no filtering-derived reordering —
and it is the full decoded list exactly in the no-criteria case. -/
theorem claim_C3_amended_json_is_filtered_list (f : volumeFilter) (body : String)
    (volumes : List Volume) (decode : String → Except String (List Volume))
    (h : decode body = Except.ok volumes) :
    VolumeList.run f false true 200 body decode
        = .ok (.jsonList (VolumeList.clientSideFilter f volumes)) ∧
    (VolumeList.clientSideFilter f volumes).Sublist volumes ∧
    (f = { name := "", pool := "", plan := "", teamOwner := "" } →
      VolumeList.clientSideFilter f volumes = volumes) := by
  refine ⟨?_, ?_, ?_⟩
  · simp [VolumeList.run, h, VolumeList.render]
  · rw [clientSideFilter_eq_filter]
    exact List.filter_sublist volumes
  · intro hf
    subst hf
    rw [clientSideFilter_eq_filter]
    exact List.filter_eq_self.mpr (fun v _ => rfl)

/-- Witness for the amended C3 at concrete data: the JSON output for the
sample response under the pool filter is the filtered list. -/
theorem claim_C3_witness :
    VolumeList.run samplePoolFilter false true 200 ""
        (fun _ => Except.ok [sampleVolume1, sampleVolume2])
      = .ok (.jsonList (VolumeList.clientSideFilter samplePoolFilter
          [sampleVolume1, sampleVolume2])) ∧
    (VolumeList.clientSideFilter samplePoolFilter
        [sampleVolume1, sampleVolume2]).Sublist [sampleVolume1, sampleVolume2] ∧
    (samplePoolFilter = { name := "", pool := "", plan := "", teamOwner := "" } →
      VolumeList.clientSideFilter samplePoolFilter [sampleVolume1, sampleVolume2]
        = [sampleVolume1, sampleVolume2]) :=
  claim_C3_amended_json_is_filtered_list samplePoolFilter ""
    [sampleVolume1, sampleVolume2] (fun _ => Except.ok [sampleVolume1, sampleVolume2]) rfl

/-- Helper: `pairLe` is the lexicographic order on (column 0, column 1)
keys, stated propositionally. -/
theorem pairLe_iff (x y : String × String) :
    pairLe x y = true ↔ (x.1 < y.1 ∨ (x.1 = y.1 ∧ x.2 ≤ y.2)) := by
  unfold pairLe
  split_ifs with h1 h2
  · simp [h1]
  · simp only [Bool.false_eq_true, false_iff]
    push_neg
    exact ⟨h1, fun he => absurd (he ▸ h2) (lt_irrefl _)⟩
  · have he : x.1 = y.1 := le_antisymm (le_of_not_lt h2) (le_of_not_lt h1)
    simp [he]

/-- Helper: `pairLe` is transitive. -/
theorem pairLe_trans (x y z : String × String) :
    pairLe x y = true → pairLe y z = true → pairLe x z = true := by
  simp only [pairLe_iff]
  rintro (h1 | ⟨h1, h1b⟩) (h2 | ⟨h2, h2b⟩)
  · exact Or.inl (lt_trans h1 h2)
  · exact Or.inl (h2 ▸ h1)
  · exact Or.inl (h1 ▸ h2)
  · exact Or.inr ⟨h1.trans h2, le_trans h1b h2b⟩

/-- Helper: `pairLe` is total. -/
theorem pairLe_total (x y : String × String) :
    pairLe x y || pairLe y x := by
  rcases lt_trichotomy x.1 y.1 with h | h | h
  · simp [pairLe_iff, h]
  · rcases le_total x.2 y.2 with h2 | h2
    · have hp : pairLe x y = true := (pairLe_iff x y).mpr (Or.inr ⟨h, h2⟩)
      simp [hp]
    · have hp : pairLe y x = true := (pairLe_iff y x).mpr (Or.inr ⟨h.symm, h2⟩)
      simp [hp]
  · simp [pairLe_iff, h]

/-- Helper: `rowLe` is transitive. -/
theorem rowLe_trans : ∀ (a b c : List String),
    rowLe a b = true → rowLe b c = true → rowLe a c = true
  | [], _, _ => fun _ _ => rfl
  | a :: as, [], _ => fun h _ => by simp [rowLe] at h
  | _ :: _, _ :: _, [] => fun _ h => by simp [rowLe] at h
  | a :: as, b :: bs, c :: cs => fun h1 h2 => by
    simp only [rowLe] at h1 h2 ⊢
    rcases lt_trichotomy a b with hab | hab | hab
    · rcases lt_trichotomy b c with hbc | hbc | hbc
      · simp [lt_trans hab hbc]
      · subst hbc; simp [hab]
      · rw [if_neg (asymm hbc), if_pos hbc] at h2
        exact absurd h2 (by simp)
    · subst hab
      rw [if_neg (lt_irrefl a), if_neg (lt_irrefl a)] at h1
      rcases lt_trichotomy a c with hac | hac | hac
      · simp [hac]
      · subst hac
        rw [if_neg (lt_irrefl a), if_neg (lt_irrefl a)] at h2 ⊢
        exact rowLe_trans as bs cs h1 h2
      · rw [if_neg (asymm hac), if_pos hac] at h2
        exact absurd h2 (by simp)
    · rw [if_neg (asymm hab), if_pos hab] at h1
      exact absurd h1 (by simp)

/-- Helper: `rowLe` is total. -/
theorem rowLe_total : ∀ (a b : List String), rowLe a b || rowLe b a
  | [], _ => by simp [rowLe]
  | _ :: _, [] => by simp [rowLe]
  | a :: as, b :: bs => by
    simp only [rowLe]
    rcases lt_trichotomy a b with h | h | h
    · simp [h]
    · subst h
      simp only [lt_irrefl, if_false]
      exact rowLe_total as bs
    · simp [h, asymm h]

/-- Helper: `rowLe` on two non-empty rows forces their first columns to be
in order. -/
theorem rowLe_head_le (x y : String) (xs ys : List String)
    (h : rowLe (x :: xs) (y :: ys) = true) : x ≤ y := by
  simp only [rowLe] at h
  split_ifs at h with h1 h2
  · exact le_of_lt h1
  · exact le_of_not_lt h2

/-- Helper: `strLe` is transitive. -/
theorem strLe_trans (a b c : String) :
    strLe a b = true → strLe b c = true → strLe a c = true := by
  simp only [strLe, decide_eq_true_eq]
  exact le_trans

/-- Helper: `strLe` is total. -/
theorem strLe_total (a b : String) : strLe a b || strLe b a := by
  simp only [strLe, Bool.or_eq_true, decide_eq_true_eq]
  exact le_total a b

/-- C7: the plan-list table has headers Plan/Provisioner/Opts, its rows are
exactly the accumulated (plan, provisioner) rows — each Opts cell being the
newline-joined "key: value" pairs, lexicographically sorted — and the rows
are sorted ascending by (Plan, Provisioner). -/
theorem claim_C7_planlist_table (plans : List (String × List VolumePlan)) :
    (VolumePlansList.render plans).headers = ["Plan", "Provisioner", "Opts"] ∧
    ((VolumePlansList.render plans).rows).Perm (VolumePlansList.planRows plans) ∧
    ((VolumePlansList.render plans).rows).Pairwise (fun a b =>
      (rowKey01 a).1 < (rowKey01 b).1 ∨
      ((rowKey01 a).1 = (rowKey01 b).1 ∧ (rowKey01 a).2 ≤ (rowKey01 b).2)) ∧
    (∀ prov p, planRow prov p
        = [p.name, prov,
           String.intercalate "\n" (sortStrings (p.opts.map (fun kv => kv.1 ++ ": " ++ kv.2)))] ∧
      (sortStrings (p.opts.map (fun kv => kv.1 ++ ": " ++ kv.2))).Pairwise (· ≤ ·)) := by
  refine ⟨rfl, ?_, ?_, fun prov p => ⟨rfl, ?_⟩⟩
  · exact List.mergeSort_perm (VolumePlansList.planRows plans) _
  · have hs := List.sorted_mergeSort
      (fun a b c => pairLe_trans (rowKey01 a) (rowKey01 b) (rowKey01 c))
      (fun a b => pairLe_total (rowKey01 a) (rowKey01 b))
      (VolumePlansList.planRows plans)
    exact hs.imp (fun h => (pairLe_iff _ _).mp h)
  · have hs := List.sorted_mergeSort strLe_trans strLe_total
      (p.opts.map (fun kv => kv.1 ++ ": " ++ kv.2))
    exact hs.imp (fun h => by simpa [strLe] using h)

/-- Witness for C7 at the spec's scenario: the single-plan response renders
the single row ("nfs", "docker", "size: 10"). -/
theorem claim_C7_witness :
    (VolumePlansList.render [("docker", [{ name := "nfs", opts := [("size", "10")] }])]).rows
      = [["nfs", "docker", "size: 10"]] := by
  have h := (claim_C7_planlist_table [("docker", [{ name := "nfs", opts := [("size", "10")] }])]).2.1
  have hrows : VolumePlansList.planRows [("docker", [{ name := "nfs", opts := [("size", "10")] }])]
      = [["nfs", "docker", "size: 10"]] := by
    simp [VolumePlansList.planRows, planRow, sortStrings]
    rfl
  rw [hrows] at h
  exact List.perm_singleton.mp h

/-- Helper: a key/value option table built and sorted by the info renderer
has its rows in ascending key (first column) order. -/
theorem tableSortRows_key_sorted (opts : List (String × String)) :
    (tableSortRows (opts.map (fun kv => [kv.1, kv.2]))).Pairwise
      (fun a b => a.headD "" ≤ b.headD "") := by
  have hs := List.sorted_mergeSort rowLe_trans rowLe_total
    (opts.map (fun kv => [kv.1, kv.2]))
  apply List.Pairwise.imp_of_mem ?_ hs
  intro a b ha hb hr
  rw [List.mem_mergeSort] at ha hb
  rcases List.mem_map.mp ha with ⟨kv1, _, rfl⟩
  rcases List.mem_map.mp hb with ⟨kv2, _, rfl⟩
  simpa using rowLe_head_le kv1.1 kv2.1 [kv1.2] [kv2.2] hr

/-- C8: the info view consists of the fixed Name/Plan/Pool/Team summary, a
Binds table in input order whose Mode column is "ro" exactly when the bind
is read-only, and Plan Opts / Opts tables holding each option map's entries
sorted ascending by Key; empty collections yield tables with headers and
zero data rows. -/
theorem claim_C8_info_view (volume : Volume) :
    (VolumeInfo.render volume).summary
        = "Name: " ++ volume.name ++ "\nPlan: " ++ volume.plan.name ++
          "\nPool: " ++ volume.pool ++ "\nTeam: " ++ volume.teamOwner ++ "\n" ∧
    (VolumeInfo.render volume).binds.headers = ["App", "MountPoint", "Mode"] ∧
    (VolumeInfo.render volume).binds.rows
        = volume.binds.map (fun b =>
            [b.id.app, b.id.mountPoint, if b.readOnly then "ro" else "rw"]) ∧
    (volume.binds = [] → (VolumeInfo.render volume).binds.rows = []) ∧
    (VolumeInfo.render volume).planOpts.headers = ["Key", "Value"] ∧
    ((VolumeInfo.render volume).planOpts.rows).Perm
        (volume.plan.opts.map (fun kv => [kv.1, kv.2])) ∧
    ((VolumeInfo.render volume).planOpts.rows).Pairwise
        (fun a b => a.headD "" ≤ b.headD "") ∧
    (volume.plan.opts = [] → (VolumeInfo.render volume).planOpts.rows = []) ∧
    (VolumeInfo.render volume).opts.headers = ["Key", "Value"] ∧
    ((VolumeInfo.render volume).opts.rows).Perm
        (volume.opts.map (fun kv => [kv.1, kv.2])) ∧
    ((VolumeInfo.render volume).opts.rows).Pairwise
        (fun a b => a.headD "" ≤ b.headD "") ∧
    (volume.opts = [] → (VolumeInfo.render volume).opts.rows = []) := by
  refine ⟨rfl, rfl, rfl, ?_, rfl, ?_, ?_, ?_, rfl, ?_, ?_, ?_⟩
  · intro h; simp [VolumeInfo.render, h]
  · exact List.mergeSort_perm _ _
  · exact tableSortRows_key_sorted volume.plan.opts
  · intro h; simp [VolumeInfo.render, h, tableSortRows]
  · exact List.mergeSort_perm _ _
  · exact tableSortRows_key_sorted volume.opts
  · intro h; simp [VolumeInfo.render, h, tableSortRows]

/-- Sample volume with one read-only bind and one plan option, used by the
C8 witness. -/
def sampleBoundVolume : Volume :=
  { name := "data1", pool := "p1", plan := { name := "nfs", opts := [("size", "10")] },
    teamOwner := "t1", opts := [],
    binds := [{ id := { app := "app1", mountPoint := "/mnt" }, readOnly := true }] }

/-- Witness for C8 at concrete data: the read-only bind renders with Mode
"ro", and the empty Opts map renders zero data rows. -/
theorem claim_C8_witness :
    (VolumeInfo.render sampleBoundVolume).binds.rows = [["app1", "/mnt", "ro"]] ∧
    (VolumeInfo.render sampleBoundVolume).opts.rows = [] := by
  have h := claim_C8_info_view sampleBoundVolume
  exact ⟨h.2.2.1, h.2.2.2.2.2.2.2.2.2.2.2 rfl⟩
